import Mathlib

/-!
Verification of the lungta-apps/geocode property-lookup scripts.

The Python sources are shallowly embedded: text is `List Char` / `String`,
Python regular-expression fragments become executable matchers, results
(`dict`s) become a record with optional fields (a `none` field models an
absent key), exceptions become `Except` values, and the network / browser
environment of each script becomes an explicit oracle structure whose fields
are the outcomes of the individual page interactions.

Character classes are modelled over the ASCII fragment that the scripts'
regular expressions and page text actually use.
-/

namespace Geocode

/-- Python `\s` (ASCII fragment): space, tab, newline, carriage return,
vertical tab, form feed. -/
def isPySpace (c : Char) : Bool :=
  c = ' ' ∨ c = '\t' ∨ c = '\n' ∨ c = '\r' ∨ c = '\x0b' ∨ c = '\x0c'

/-- ASCII decimal digit, Python `\d` (ASCII fragment). -/
def isDig (c : Char) : Bool := '0' ≤ c ∧ c ≤ '9'

/-- ASCII letter. -/
def isAsciiAlpha (c : Char) : Bool := ('A' ≤ c ∧ c ≤ 'Z') ∨ ('a' ≤ c ∧ c ≤ 'z')

/-- The character class `[A-Z0-9 .#'-]` under `re.IGNORECASE`, as used by the
address-capturing groups of the scripts. -/
def isClassChar (c : Char) : Bool :=
  isAsciiAlpha c ∨ isDig c ∨ c = ' ' ∨ c = '.' ∨ c = '#' ∨ c = '\'' ∨ c = '-'

/-- Python `str.strip()` on a character list. -/
def pyStripL (l : List Char) : List Char :=
  ((l.dropWhile isPySpace).reverse.dropWhile isPySpace).reverse

/-- Python `s.strip()`. -/
def pyStrip (s : String) : String := ⟨pyStripL s.data⟩

/-- Worker for whitespace collapsing, `" ".join(s.split())`.
State `st`: 0 = no word seen yet, 1 = inside a word, 2 = in whitespace after
a word. -/
def collapseGo : Nat → List Char → List Char
  | _, [] => []
  | st, c :: rest =>
    if isPySpace c then collapseGo (if st = 0 then 0 else 2) rest
    else (if st = 2 then [' ', c] else [c]) ++ collapseGo 1 rest

/-- Python `" ".join(s.split())`: strip the ends and collapse each internal
whitespace run to a single space. -/
def collapseL (l : List Char) : List Char := collapseGo 0 l

/-- `" ".join(s.split())` on `String`. -/
def collapseWS (s : String) : String := ⟨collapseL s.data⟩

/-- Substring test, Python `needle in haystack`. -/
def containsSub (needle haystack : List Char) : Bool :=
  haystack.tails.any fun t => needle.isPrefixOf t

/-- Take exactly `n` ASCII digits off the front, returning them and the rest
(Python `\d{n}`). -/
def splitDigits : Nat → List Char → Option (List Char × List Char)
  | 0, l => some ([], l)
  | _ + 1, [] => none
  | n + 1, c :: l =>
    if isDig c then
      match splitDigits n l with
      | some (d, r) => some (c :: d, r)
      | none => none
    else none

/-- The state-code letters accepted by the scripts' patterns: literally `MT`,
case-insensitively when `ci` is true. -/
def mtOK (ci : Bool) (m t : Char) : Bool :=
  if ci then (m = 'M' ∨ m = 'm') ∧ (t = 'T' ∨ t = 't')
  else m = 'M' ∧ t = 'T'

/-- Matcher for the tail `,\s*MT\s*\d{5}(?:-\d{4})?` starting exactly at the
head of the list.  Returns the consumed characters and the rest.  The optional
`-\d{4}` group is greedy: it is consumed when present in full. -/
def parseMTTail (ci : Bool) (l : List Char) : Option (List Char × List Char) :=
  match l with
  | ',' :: r1 =>
    let sp1 := r1.takeWhile isPySpace
    let r2 := r1.dropWhile isPySpace
    match r2 with
    | m :: t :: r3 =>
      if mtOK ci m t then
        let sp2 := r3.takeWhile isPySpace
        let r4 := r3.dropWhile isPySpace
        match splitDigits 5 r4 with
        | some (d5, r5) =>
          match r5 with
          | '-' :: r6 =>
            match splitDigits 4 r6 with
            | some (d4, r7) => some (',' :: (sp1 ++ m :: t :: (sp2 ++ d5 ++ '-' :: d4)), r7)
            | none => some (',' :: (sp1 ++ m :: t :: (sp2 ++ d5)), r5)
          | _ => some (',' :: (sp1 ++ m :: t :: (sp2 ++ d5)), r5)
        | none => none
      else none
    | _ => none
  | _ => none

/-- `,\s*MT\s*\d{5}(?:-\d{4})?$`-style anchored match: the tail pattern must
consume the whole list.  (When the greedy optional group leaves a non-empty
rest, that rest starts with `-`, so the backtracked alternative cannot end the
string either.) -/
def anchoredMT (ci : Bool) (l : List Char) : Bool :=
  match parseMTTail ci l with
  | some (_, rest) => rest = []
  | none => false

/-- Python `re.search(r",\s*MT\s*\d{5}(?:-\d{4})?$", s)`: some position of the
string starts a match ending at the end of the string, or — Python `$` — just
before a single trailing newline. -/
def reSearchMTDollar (ci : Bool) (l : List Char) : Bool :=
  l.tails.any (anchoredMT ci) ||
    (l.getLast? = some '\n' && l.dropLast.tails.any (anchoredMT ci))

/-- `_looks_like_full_address` of `property_lookup_api.py`: empty / short
strings rejected, then the case-insensitive anchored search. -/
def looks_like_full_address_api (s : String) : Bool :=
  if s.length < 10 then false
  else reSearchMTDollar true s.data

/-- `_looks_like_full_address` of `property_lookup.py`: emptiness guard, then
the case-insensitive anchored search (no minimum length). -/
def looks_like_full_address_pl (s : String) : Bool :=
  if s.data = [] then false
  else reSearchMTDollar true s.data

/-- `_looks_like_full_address` of `simple_property_lookup.py`: the anchored
search without `re.IGNORECASE` and without any length guard. -/
def looks_like_full_address_simple (s : String) : Bool :=
  reSearchMTDollar false s.data

/-! ## Capture-group matchers

The capturing group shared by the scripts' scan patterns is
`([A-Z0-9 .#'-]+?,\s*MT\s*\d{5}(?:-\d{4})?)` under `re.IGNORECASE`:
a lazy non-empty run of class characters followed by `parseMTTail`. -/

/-- Lazy matching of the capture group starting exactly here, with the class
characters read so far in `acc`.  At each extension of the lazy `+?` run the
tail is attempted first, mirroring the regex engine's shortest-first order.
Returns the whole group and the rest of the input after it. -/
def lazyGroupGo (acc : List Char) : List Char → Option (List Char × List Char)
  | [] => none
  | c :: rest =>
    if isClassChar c then
      match parseMTTail true rest with
      | some (t, after) => some ((acc ++ [c]) ++ t, after)
      | none => lazyGroupGo (acc ++ [c]) rest
    else none

/-- The capture group matched starting exactly at the head of the list. -/
def lazyGroupAt (l : List Char) : Option (List Char × List Char) :=
  lazyGroupGo [] l

/-- Backtracking for a greedy `\s*` in front of the group (the group's class
includes the space character, so the engine gives skipped whitespace back one
character at a time when the group fails). `skippedRev` is the skipped run,
nearest character first. -/
def goBackGroup : List Char → List Char → Option (List Char)
  | [], rest =>
    match lazyGroupAt rest with
    | some (g, _) => some g
    | none => none
  | s :: ss, rest =>
    match lazyGroupAt rest with
    | some (g, _) => some g
    | none => goBackGroup ss (s :: rest)

/-- `\s*` followed by the capture group, greedy-first as in the engine. -/
def greedyWsGroup (l : List Char) : Option (List Char) :=
  goBackGroup (l.takeWhile isPySpace).reverse (l.dropWhile isPySpace)

/-- Consume a literal label case-insensitively (ASCII), return the rest. -/
def matchLabelCI : List Char → List Char → Option (List Char)
  | [], l => some l
  | _ :: _, [] => none
  | a :: lbl, c :: l =>
    if a.toLower = c.toLower then matchLabelCI lbl l else none

/-- `re.search(label + r"\s*(group)", text, re.I)`: scan start positions left
to right, at each try the label then the whitespace-and-group part. -/
def searchLabeledScan (lbl : List Char) : List Char → Option (List Char)
  | [] => none
  | l@(_ :: rest) =>
    match (matchLabelCI lbl l).bind greedyWsGroup with
    | some g => some g
    | none => searchLabeledScan lbl rest

/-- One attempt of `(?:Property\s+)?Address:\s*(group)` at this position: the
optional `Property\s+` prefix is tried first (greedy optional), then the bare
`Address:` form. -/
def scanPLAt (l : List Char) : Option (List Char) :=
  let withProp : Option (List Char) :=
    (matchLabelCI "Property".data l).bind fun r1 =>
      if r1.takeWhile isPySpace = [] then none
      else (matchLabelCI "Address:".data (r1.dropWhile isPySpace)).bind greedyWsGroup
  match withProp with
  | some g => some g
  | none => (matchLabelCI "Address:".data l).bind greedyWsGroup

/-- `re.search(r"(?:Property\s+)?Address:\s*(group)", text, re.I)` — strategy 5
of `property_lookup.py`. -/
def scanPL : List Char → Option (List Char)
  | [] => none
  | l@(_ :: rest) =>
    match scanPLAt l with
    | some g => some g
    | none => scanPL rest

/-- Leftmost match of the bare group pattern, with the rest of the input after
the match (for `re.findall` stepping). -/
def findLeftmostG : List Char → Option (List Char × List Char)
  | [] => none
  | l@(_ :: rest) =>
    match lazyGroupAt l with
    | some (g, after) => some (g, after)
    | none => findLeftmostG rest

/-- `re.findall(group, text, re.I)`: successive non-overlapping leftmost
matches.  `fuel` bounds the recursion; `text.length + 1` always suffices since
every match consumes at least one character. -/
def findallGroups : Nat → List Char → List (List Char)
  | 0, _ => []
  | fuel + 1, l =>
    match findLeftmostG l with
    | none => []
    | some (g, after) => g :: findallGroups fuel after

/-! ## Results and orchestrators -/

/-- The JSON object printed / returned by the lookup scripts.  A `none` field
models an absent key. -/
structure LookupResult where
  success : Bool
  address : Option String := none
  error : Option String := none
  geocode : Option String := none
  debug_info : Option String := none
  deriving Repr, DecidableEq

/-- Per-request page environment of `property_lookup.py`'s
`get_property_address`: the outcome of each page interaction the strategies
perform, in source order.  `Except.error e` is a raised exception with message
`e`. -/
structure PLPage where
  /-- `page.goto(full_url, ...)` — not guarded by an inner `try`. -/
  goto : Except String Unit
  /-- Strategy 1: the `Property Address` label's following-sibling text;
  `none` when the label or the sibling is absent (`count() == 0`). -/
  strat1 : Except String (Option String)
  /-- Strategy 2: per-XPath outcomes of the `ADDRESS_XPATHS` loop; an
  `Except.error` is a locator/wait failure for that XPath. -/
  strat2 : List (Except String String)
  /-- Strategy 3: `page.text_content("body")` — not guarded by an inner
  `try`; `none` models a `None` return. -/
  bodyText : Except String (Option String)
  /-- Strategy 3: the `following-sibling` text after the label — also not
  guarded by an inner `try`. -/
  strat3Value : Except String (Option String)
  /-- Strategy 4: the `nextElementSibling.innerText` walk; `none` when the
  label is absent or the sibling is `null`. -/
  strat4 : Except String (Option String)
  /-- Strategy 5: `page.inner_text("body")` (guarded by an inner `try`). -/
  bodyInnerText : Except String String

/-- Generic failure of `property_lookup.py`'s outer `except` handler. -/
def plProcError (e : String) : LookupResult :=
  { success := false, error := some ("Error processing geocode: " ++ e) }

/-- The not-found failure of `property_lookup.py`. -/
def plNotFound : LookupResult :=
  { success := false, error := some "Address not found for the provided geocode" }

/-- Strategy 2 of `property_lookup.py`: first XPath whose stripped, collapsed
inner text passes the validator. -/
def plStrat2 : List (Except String String) → Option String
  | [] => none
  | Except.error _ :: rest => plStrat2 rest
  | Except.ok t :: rest =>
    let text := collapseWS (pyStrip t)
    if looks_like_full_address_pl text then some text else plStrat2 rest

/-- `get_property_address` of `property_lookup.py`: the five extraction
strategies in order.  Strategies 1, 2, 4 and 5 swallow their own exceptions;
an exception from `goto` or from strategy 3's unguarded page reads falls to
the outer handler. -/
def getPropertyAddressPL (geocode : String) (p : PLPage) : LookupResult :=
  match p.goto with
  | Except.error e => plProcError e
  | Except.ok _ =>
    -- Strategy 1 (whole block in try/except pass)
    let s1 : Option String :=
      match p.strat1 with
      | Except.ok (some t) =>
        let address := pyStrip t
        if looks_like_full_address_pl address then some address else none
      | _ => none
    match s1 with
    | some address => { success := true, address := some address, geocode := some geocode }
    | none =>
    -- Strategy 2 (per-XPath try/except continue)
    match plStrat2 p.strat2 with
    | some text => { success := true, address := some text, geocode := some geocode }
    | none =>
    -- Strategy 3 (unguarded)
    match p.bodyText with
    | Except.error e => plProcError e
    | Except.ok bt =>
      let s3 : Except String (Option String) :=
        match bt with
        | some allText =>
          if allText ≠ "" ∧ containsSub "Property Address".data allText.data then
            match p.strat3Value with
            | Except.error e => Except.error e
            | Except.ok (some t) =>
              let address := pyStrip t
              if looks_like_full_address_pl address then Except.ok (some address)
              else Except.ok none
            | Except.ok none => Except.ok none
          else Except.ok none
        | none => Except.ok none
      match s3 with
      | Except.error e => plProcError e
      | Except.ok (some address) =>
        { success := true, address := some address, geocode := some geocode }
      | Except.ok none =>
      -- Strategy 4 (try/except pass)
      let s4 : Option String :=
        match p.strat4 with
        | Except.ok (some t) =>
          if t ≠ "" ∧ looks_like_full_address_pl (pyStrip t) then some (pyStrip t) else none
        | _ => none
      match s4 with
      | some address => { success := true, address := some address, geocode := some geocode }
      | none =>
      -- Strategy 5 (try/except pass): regex scan, no validator check
      let s5 : Option String :=
        match p.bodyInnerText with
        | Except.ok allText => (scanPL allText.data).map fun g => collapseWS ⟨g⟩
        | Except.error _ => none
      match s5 with
      | some address => { success := true, address := some address, geocode := some geocode }
      | none => plNotFound

/-- The extraction portion of `simple_property_lookup.py`: the three labeled
patterns via `re.search`, then the loop over `re.findall` of the bare Montana
pattern keeping the first cleaned match longer than 10 characters. -/
def simpleExtract (t : List Char) : Option String :=
  match searchLabeledScan "Address:".data t with
  | some g => some (collapseWS ⟨g⟩)
  | none =>
  match searchLabeledScan "Physical Address:".data t with
  | some g => some (collapseWS ⟨g⟩)
  | none =>
  match searchLabeledScan "Property Address:".data t with
  | some g => some (collapseWS ⟨g⟩)
  | none =>
    (findallGroups (t.length + 1) t).findSome? fun g =>
      let cleaned := collapseWS ⟨g⟩
      if cleaned.length > 10 then some cleaned else none

/-- `get_property_address` of `simple_property_lookup.py`.  The fetch and
parse (request, `raise_for_status`, `soup.get_text()`) are the oracle: `ok`
carries the page text, `error` a network exception message. -/
def getPropertyAddressSimple (geocode : String) (fetch : Except String String) :
    LookupResult :=
  match fetch with
  | Except.error e => { success := false, error := some ("Network error: " ++ e) }
  | Except.ok pageText =>
    match simpleExtract pageText.data with
    | some address => { success := true, address := some address, geocode := some geocode }
    | none =>
      { success := false,
        error := some ("No address found for geocode " ++ geocode ++
          ". The property may not exist or the page structure may have changed."),
        debug_info := some ("Page contains " ++ toString pageText.length ++ " characters") }

/-! ## The FastAPI endpoint (`app.py`) -/

/-- An HTTP response of the `/lookup` endpoint; `none` fields are keys absent
from the JSON body. -/
structure HttpResponse where
  status : Nat
  geocode : Option String := none
  address : Option String := none
  detail : Option String := none
  deriving Repr, DecidableEq

/-- Per-request page environment of `app.py`'s `lookup` handler: the outcome
of each browser interaction in source order. -/
structure AppPage where
  /-- `context.new_page()` — performed before the `try`, so its exception
  escapes the `finally` that closes the context. -/
  newPage : Except String Unit
  /-- `page.goto(url, ...)`. -/
  goto : Except String Unit
  /-- `label.count() == 0` test for the `Property Address` div. -/
  labelFound : Except String Bool
  /-- Text of the `following-sibling` div when the label was found; `none`
  when `value.count() == 0`. -/
  labelValue : Except String (Option String)
  /-- `page.text_content("body")`; `none` models a `None` return. -/
  bodyText : Except String (Option String)
  /-- Text of the `normalize-space` sibling in the fallback branch. -/
  altValue : Except String (Option String)
  /-- `nextElementSibling.innerText` from the `text=Property Address`
  locator walk; `none` when the locator finds nothing or the sibling is
  `null`. -/
  textLoc : Except String (Option String)

/-- `lookup` of `app.py`, from context creation onward.  Returns the response
(or the exception that escaped the handler) together with whether
`context.close()` ran.  `new_page` happens before the `try`/`finally`, so an
exception there escapes with the context still open; everything inside the
`try` ends in the `finally`. -/
def appLookup (geocode : String) (p : AppPage) : Except String HttpResponse × Bool :=
  match p.newPage with
  | Except.error e => (Except.error e, false)
  | Except.ok _ =>
    let body : Except String HttpResponse :=
      match p.goto with
      | Except.error e => Except.error e
      | Except.ok _ =>
        match p.labelFound with
        | Except.error e => Except.error e
        | Except.ok found =>
          let addr1 : Except String (Option String) :=
            if ¬ found then
              match p.bodyText with
              | Except.error e => Except.error e
              | Except.ok bt =>
                if (bt.getD "") ≠ "" ∧ containsSub "Property Address".data (bt.getD "").data then
                  match p.altValue with
                  | Except.error e => Except.error e
                  | Except.ok (some t) => Except.ok (some (pyStrip t))
                  | Except.ok none => Except.ok none
                else Except.ok none
            else
              match p.labelValue with
              | Except.error e => Except.error e
              | Except.ok (some t) => Except.ok (some (pyStrip t))
              | Except.ok none => Except.ok none
          match addr1 with
          | Except.error e => Except.error e
          | Except.ok a1 =>
            let addr2 : Except String (Option String) :=
              if a1.getD "" = "" then
                match p.textLoc with
                | Except.error e => Except.error e
                | Except.ok (some t) => Except.ok (some (pyStrip t))
                | Except.ok none => Except.ok none
              else Except.ok a1
            match addr2 with
            | Except.error e => Except.error e
            | Except.ok a2 =>
              if (a2.getD "") = "" then
                Except.ok { status := 404, detail := some "Address not found on the page." }
              else
                Except.ok { status := 200, geocode := some geocode, address := a2 }
    match body with
    | Except.ok r => (Except.ok r, true)
    | Except.error e =>
      (Except.ok { status := 500, detail := some ("Lookup failed: " ++ e) }, true)

/-- The `/lookup` route with FastAPI's `Query(..., min_length=5)` validation.
A missing or too-short `geocode` is rejected by the framework with a 422
validation response before the handler body (and hence any browser or network
activity) runs; an exception escaping the handler becomes a plain 500. -/
def lookupEndpointApp (geocode : Option String) (p : AppPage) : HttpResponse :=
  match geocode with
  | none => { status := 422, detail := some "validation error" }
  | some g =>
    if g.length < 5 then { status := 422, detail := some "validation error" }
    else
      match (appLookup g p).1 with
      | Except.ok r => r
      | Except.error _ => { status := 500, detail := some "Internal Server Error" }

/-! ## `property_lookup_api.py` -/

/-- `geocode.replace("-", "")`. -/
def stripHyphens (s : String) : String := ⟨s.data.filter fun c => c ≠ '-'⟩

/-- The static `known_properties` mapping of
`try_known_properties_fallback`. -/
def known_properties : List (String × String) :=
  [("03-1032-34-1-08-10-0000", "2324 REHBERG LN BILLINGS, MT 59102"),
   ("03103234108100000", "2324 REHBERG LN BILLINGS, MT 59102")]

/-- First value bound to `k` in an association list (Python dict lookup). -/
def assocFind (k : String) : List (String × String) → Option String
  | [] => none
  | (k', v) :: rest => if k = k' then some v else assocFind k rest

/-- `try_known_properties_fallback` of `property_lookup_api.py`: exact match,
then match with hyphens removed, else a failure result. -/
def try_known_properties_fallback (geocode : String) : LookupResult :=
  match assocFind geocode known_properties with
  | some a => { success := true, address := some a, geocode := some geocode }
  | none =>
    match assocFind (stripHyphens geocode) known_properties with
    | some a => { success := true, address := some a, geocode := some geocode }
    | none =>
      { success := false,
        error := some ("Property data not available for geocode " ++ geocode ++
          ". This service uses the official Montana cadastral database, but some properties may not be available or may require different formatting.") }

/-- Network environment of `property_lookup_api.py`'s `get_property_address`:
the results (or exceptions) of the two network-backed strategies. -/
structure ApiEnv where
  /-- Outcome of `try_arcgis_api(geocode)`. -/
  arcgis : Except String LookupResult
  /-- Outcome of `try_simple_http_scraping(geocode)`. -/
  scraping : Except String LookupResult

/-- `get_property_address` of `property_lookup_api.py`: ArcGIS API, then
HTTP scraping, then the known-properties fallback; an exception or an
unsuccessful result from a strategy advances to the next. -/
def getPropertyAddressApi (geocode : String) (env : ApiEnv) : LookupResult :=
  let step2 : LookupResult :=
    match env.scraping with
    | Except.ok r => if r.success then r else try_known_properties_fallback geocode
    | Except.error _ => try_known_properties_fallback geocode
  match env.arcgis with
  | Except.ok r => if r.success then r else step2
  | Except.error _ => step2

/-! ## `property_lookup_requests.py` -/

/-- Network environment of `lookup_property`: status (or exception) of the
initial `session.get` and of the `session.post`, plus the response bodies —
which the function never reads. -/
structure ReqNet where
  initialStatus : Except String Nat
  searchStatus : Except String Nat
  initialBody : String := ""
  searchBody : String := ""

/-- `lookup_property` of `property_lookup_requests.py`: requires a 200 from
both requests, then returns the hardcoded address when the cleaned geocode is
the known one, and a failure result otherwise.  The page bodies are never
parsed. -/
def lookup_property (geocode : String) (net : ReqNet) : LookupResult :=
  let clean_geocode := stripHyphens geocode
  match net.initialStatus with
  | Except.error e => { success := false, error := some ("Request failed: " ++ e) }
  | Except.ok st1 =>
    if st1 ≠ 200 then
      { success := false, error := some "Failed to access cadastral website" }
    else
      match net.searchStatus with
      | Except.error e => { success := false, error := some ("Request failed: " ++ e) }
      | Except.ok st2 =>
        if st2 = 200 ∧
            (clean_geocode = "03103234108100000" ∨ geocode = "03-1032-34-1-08-10-0000") then
          { success := true, address := some "2324 REHBERG LN BILLINGS, MT 59102",
            geocode := some geocode }
        else
          { success := false, error := some "Property not found or website structure changed" }

/-! ## `diagnostic_lookup.py` -/

/-- Environment of `diagnostic_lookup.py`: the outcome of
`install_browsers_if_needed` (whose `subprocess.run(..., check=True)` may
raise, unguarded) and of the page fetch (`goto` + `inner_text("body")`). -/
structure DiagEnv where
  install : Except String Unit
  pageText : Except String String

/-- One attempt of `Address:\s*([^,\n]+,\s*MT\s*\d{5}(?:-\d{4})?)` at this
position (first diagnostic pattern).  The greedy `[^,\n]+` run necessarily
ends at the first comma or newline, and the following literal `,` admits no
backtracked shorter run (every run character is a non-comma), so the group is
the run followed by a `parseMTTail` match at the run's end.  Note the pattern
contains no `\s*` between `Address:` and the group. -/
def diagAt (l : List Char) : Option (List Char) :=
  (matchLabelCI "Address:".data l).bind fun r =>
    let run := r.takeWhile fun c => ¬ (c = ',' ∨ c = '\n')
    if run = [] then none
    else (parseMTTail true (r.drop run.length)).map fun p => run ++ p.1

/-- Leftmost match of the first diagnostic pattern
(`re.findall(..., re.I | re.MULTILINE)` followed by `matches[0]`). -/
def diagScan1 : List Char → Option (List Char)
  | [] => none
  | l@(_ :: rest) =>
    match diagAt l with
    | some g => some g
    | none => diagScan1 rest

/-- `get_property_address_diagnostic` of `diagnostic_lookup.py`.  A failure of
`install_browsers_if_needed` escapes unguarded; everything inside the `try`
(navigation, page reads) is caught and turned into a failure result. -/
def getPropertyAddressDiag (geocode : String) (env : DiagEnv) :
    Except String LookupResult :=
  match env.install with
  | Except.error e => Except.error e
  | Except.ok _ =>
    Except.ok <|
      match env.pageText with
      | Except.error e =>
        { success := false, error := some ("Error: " ++ e),
          debug_info := some "exception" }
      | Except.ok pageText =>
        if ¬ containsSub geocode.data pageText.data then
          { success := false, error := some "Geocode not found on page",
            debug_info := some "page snippet" }
        else
          match diagScan1 pageText.data with
          | some g =>
            { success := true, address := some (collapseWS ⟨g⟩),
              geocode := some geocode }
          | none =>
            match findLeftmostG pageText.data with
            | some (g, _) =>
              { success := true, address := some (collapseWS ⟨g⟩),
                geocode := some geocode }
            | none =>
              { success := false, error := some "Address pattern not found",
                debug_info := some "page snippet" }

/-! ## The `__main__` blocks of the CLI variants

Each model returns the JSON object printed to standard output (as a
`LookupResult`, or the escaping exception for `diagnostic_lookup.py`) together
with the process exit code. -/

/-- `__main__` of `property_lookup.py`: usage check, strip, empty check. -/
def cliPL (argv : List String) (page : PLPage) : LookupResult × Nat :=
  match argv with
  | [_, arg] =>
    let geocode := pyStrip arg
    if geocode = "" then
      ({ success := false, error := some "Empty geocode provided" }, 1)
    else (getPropertyAddressPL geocode page, 0)
  | _ => ({ success := false, error := some "Geocode argument required" }, 1)

/-- `__main__` of `property_lookup_requests.py`: usage check only — the
argument is neither stripped nor checked for emptiness. -/
def cliRequests (argv : List String) (net : ReqNet) : LookupResult × Nat :=
  match argv with
  | [_, arg] => (lookup_property arg net, 0)
  | _ =>
    ({ success := false,
       error := some "Usage: python property_lookup_requests.py <geocode>" }, 1)

/-- `__main__` of `diagnostic_lookup.py`: usage check and strip, but no
emptiness check; an exception escaping the lookup aborts with a traceback
(modelled as the `Except.error`, exit code 1, no JSON printed). -/
def cliDiag (argv : List String) (env : DiagEnv) :
    Except String LookupResult × Nat :=
  match argv with
  | [_, arg] =>
    match getPropertyAddressDiag (pyStrip arg) env with
    | Except.ok r => (Except.ok r, 0)
    | Except.error e => (Except.error e, 1)
  | _ =>
    (Except.ok { success := false, error := some "Geocode argument required" }, 1)

/-! ## Specification-side predicates -/

/-- The validator rule as the spec words it: after collapsing internal
whitespace the string ends with a comma, a space, any 2-letter state code
(case-insensitive), a space, and a 5-digit zip optionally followed by a
hyphen and 4 more digits. -/
def specStateZipEnd (l : List Char) : Bool :=
  match l with
  | ',' :: ' ' :: a :: b :: ' ' :: rest =>
    if isAsciiAlpha a ∧ isAsciiAlpha b then
      match splitDigits 5 rest with
      | some (_, []) => true
      | some (_, '-' :: r) =>
        (match splitDigits 4 r with
         | some (_, []) => true
         | _ => false)
      | _ => false
    else false
  | _ => false

/-- `isValidAddress` as claimed by the spec: the collapsed string ends with
`, <state> <zip>`. -/
def spec_isValidAddress (s : String) : Bool :=
  (collapseL s.data).tails.any specStateZipEnd

/-- Declarative characterisation of the `,\s*MT\s*\d{5}(?:-\d{4})?` search
anchored at `$`: the string decomposes into an arbitrary prefix, a comma,
optional whitespace, `MT` (case per `ci`), optional whitespace, five digits,
an optional hyphen-plus-four-digits group, and an optional single trailing
newline (Python's `$`). -/
def MtSuffixSpec (ci : Bool) (l : List Char) : Prop :=
  ∃ pre sp1 m t sp2 d5 tl nl,
    l = pre ++ ',' :: (sp1 ++ m :: t :: (sp2 ++ d5 ++ tl ++ nl)) ∧
    (∀ c ∈ sp1, isPySpace c = true) ∧ mtOK ci m t = true ∧
    (∀ c ∈ sp2, isPySpace c = true) ∧ d5.length = 5 ∧ (∀ c ∈ d5, isDig c = true) ∧
    (tl = [] ∨ ∃ d4, tl = '-' :: d4 ∧ d4.length = 4 ∧ (∀ c ∈ d4, isDig c = true)) ∧
    (nl = [] ∨ nl = ['\n'])

/-! ## Structural lemmas about the matchers -/

theorem splitDigits_sound {n : Nat} {l d r : List Char}
    (h : splitDigits n l = some (d, r)) :
    l = d ++ r ∧ d.length = n ∧ ∀ c ∈ d, isDig c = true := by
  induction n generalizing l d r with
  | zero =>
    simp only [splitDigits, Option.some.injEq, Prod.mk.injEq] at h
    simp [← h.1, ← h.2]
  | succ n ih =>
    match l with
    | [] => simp [splitDigits] at h
    | c :: l =>
      simp only [splitDigits] at h
      by_cases hc : isDig c = true
      · rw [if_pos hc] at h
        match hsd : splitDigits n l with
        | none => rw [hsd] at h; exact absurd h (by simp)
        | some (d', r') =>
          rw [hsd] at h
          simp only [Option.some.injEq, Prod.mk.injEq] at h
          obtain ⟨h1, h2⟩ := h
          obtain ⟨e1, e2, e3⟩ := ih hsd
          subst h1 h2
          refine ⟨by simp [e1], by simp [e2], ?_⟩
          intro x hx
          rcases List.mem_cons.mp hx with h | h
          · subst h; exact hc
          · exact e3 x h
      · rw [if_neg hc] at h; exact absurd h (by simp)

theorem splitDigits_complete {d : List Char} {n : Nat} (r : List Char)
    (hlen : d.length = n) (hdig : ∀ c ∈ d, isDig c = true) :
    splitDigits n (d ++ r) = some (d, r) := by
  induction d generalizing n with
  | nil => subst hlen; simp [splitDigits]
  | cons c d ih =>
    subst hlen
    simp only [List.length_cons, List.cons_append, splitDigits]
    rw [if_pos (hdig c (by simp))]
    have := ih (n := d.length) rfl (fun x hx => hdig x (by simp [hx]))
    simp only [List.append_eq] at this ⊢
    rw [this]

theorem takeWhile_all_cons {p : Char → Bool} {xs : List Char} {y : Char}
    (ys : List Char) (hx : ∀ c ∈ xs, p c = true) (hy : p y = false) :
    (xs ++ y :: ys).takeWhile p = xs ∧ (xs ++ y :: ys).dropWhile p = y :: ys := by
  induction xs with
  | nil => simp [List.takeWhile, List.dropWhile, hy]
  | cons x xs ih =>
    have hx1 : p x = true := hx x (by simp)
    obtain ⟨h1, h2⟩ := ih (fun c hc => hx c (by simp [hc]))
    simp [List.takeWhile, List.dropWhile, hx1, h1, h2]

theorem parseMTTail_sound {ci : Bool} {l t r : List Char}
    (h : parseMTTail ci l = some (t, r)) :
    l = t ++ r ∧
    ∃ sp1 m tc sp2 d5 tl,
      t = ',' :: (sp1 ++ m :: tc :: (sp2 ++ d5 ++ tl)) ∧
      (∀ c ∈ sp1, isPySpace c = true) ∧ mtOK ci m tc = true ∧
      (∀ c ∈ sp2, isPySpace c = true) ∧ d5.length = 5 ∧ (∀ c ∈ d5, isDig c = true) ∧
      (tl = [] ∨ ∃ d4, tl = '-' :: d4 ∧ d4.length = 4 ∧ (∀ c ∈ d4, isDig c = true)) := by
  unfold parseMTTail at h
  split at h
  case _ r1 =>
    dsimp only at h
    split at h
    case _ m tc r3 heq =>
      have hr1 : r1 = r1.takeWhile isPySpace ++ m :: tc :: r3 := by
        conv_lhs => rw [← List.takeWhile_append_dropWhile (p := isPySpace) (l := r1)]
        rw [heq]
      split at h
      case isTrue hmt =>
        split at h
        case _ d5 r5 hsd =>
          obtain ⟨e1, e2, e3⟩ := splitDigits_sound hsd
          have hr3 : r3 = r3.takeWhile isPySpace ++ (d5 ++ r5) := by
            conv_lhs => rw [← List.takeWhile_append_dropWhile (p := isPySpace) (l := r3)]
            rw [e1]
          split at h
          case _ r6 =>
            split at h
            case _ d4 r7 hsd4 =>
              obtain ⟨f1, f2, f3⟩ := splitDigits_sound hsd4
              simp only [Option.some.injEq, Prod.mk.injEq] at h
              obtain ⟨ht, hr⟩ := h
              subst ht; subst hr
              constructor
              · conv_lhs => rw [hr1, hr3, f1]
                simp [List.append_assoc]
              · exact ⟨r1.takeWhile isPySpace, m, tc, r3.takeWhile isPySpace, d5, '-' :: d4,
                  rfl, fun c hc => List.mem_takeWhile_imp hc, hmt,
                  fun c hc => List.mem_takeWhile_imp hc, e2, e3,
                  Or.inr ⟨d4, rfl, f2, f3⟩⟩
            case _ =>
              simp only [Option.some.injEq, Prod.mk.injEq] at h
              obtain ⟨ht, hr⟩ := h
              subst ht; subst hr
              constructor
              · conv_lhs => rw [hr1, hr3]
                simp [List.append_assoc]
              · exact ⟨r1.takeWhile isPySpace, m, tc, r3.takeWhile isPySpace, d5, [],
                  by simp, fun c hc => List.mem_takeWhile_imp hc, hmt,
                  fun c hc => List.mem_takeWhile_imp hc, e2, e3, Or.inl rfl⟩
          case _ =>
            simp only [Option.some.injEq, Prod.mk.injEq] at h
            obtain ⟨ht, hr⟩ := h
            subst ht; subst hr
            constructor
            · conv_lhs => rw [hr1, hr3]
              simp [List.append_assoc]
            · exact ⟨r1.takeWhile isPySpace, m, tc, r3.takeWhile isPySpace, d5, [],
                by simp, fun c hc => List.mem_takeWhile_imp hc, hmt,
                fun c hc => List.mem_takeWhile_imp hc, e2, e3, Or.inl rfl⟩
        case _ => exact absurd h (by simp)
      case isFalse hmt => exact absurd h (by simp)
    case _ => exact absurd h (by simp)
  case _ => exact absurd h (by simp)

theorem isDig_not_space {c : Char} (h : isDig c = true) : isPySpace c = false := by
  simp only [isDig, decide_eq_true_eq] at h
  simp only [isPySpace, decide_eq_false_iff_not]
  rintro (rfl | rfl | rfl | rfl | rfl | rfl) <;> exact absurd h (by decide)

theorem mtOK_not_space {ci : Bool} {m t : Char} (h : mtOK ci m t = true) :
    isPySpace m = false := by
  cases ci <;> simp [mtOK] at h
  · obtain ⟨rfl, -⟩ := h; decide
  · rcases h.1 with rfl | rfl <;> decide

theorem parseMTTail_cons_comma (ci : Bool) (X : List Char) : parseMTTail ci (',' :: X) =
    (match X.dropWhile isPySpace with
    | m :: t :: r3 =>
      if mtOK ci m t then
        match splitDigits 5 (r3.dropWhile isPySpace) with
        | some (d5, r5) =>
          match r5 with
          | '-' :: r6 =>
            match splitDigits 4 r6 with
            | some (d4, r7) => some (',' :: (X.takeWhile isPySpace ++ m :: t :: (r3.takeWhile isPySpace ++ d5 ++ '-' :: d4)), r7)
            | none => some (',' :: (X.takeWhile isPySpace ++ m :: t :: (r3.takeWhile isPySpace ++ d5)), r5)
          | _ => some (',' :: (X.takeWhile isPySpace ++ m :: t :: (r3.takeWhile isPySpace ++ d5)), r5)
        | none => none
      else none
    | _ => none) := rfl

theorem parseMTTail_complete {ci : Bool} {sp1 sp2 d5 tl : List Char} {m t : Char}
    (h1 : ∀ c ∈ sp1, isPySpace c = true) (hmt : mtOK ci m t = true)
    (h2 : ∀ c ∈ sp2, isPySpace c = true) (h5 : d5.length = 5)
    (hd : ∀ c ∈ d5, isDig c = true)
    (htl : tl = [] ∨ ∃ d4, tl = '-' :: d4 ∧ d4.length = 4 ∧ (∀ c ∈ d4, isDig c = true)) :
    parseMTTail ci (',' :: (sp1 ++ m :: t :: (sp2 ++ d5 ++ tl))) =
      some (',' :: (sp1 ++ m :: t :: (sp2 ++ d5 ++ tl)), []) := by
  obtain ⟨c0, d5', rfl⟩ : ∃ c0 d5', d5 = c0 :: d5' := by
    cases d5 with
    | nil => simp at h5
    | cons a b => exact ⟨a, b, rfl⟩
  have hc0 : isPySpace c0 = false := isDig_not_space (hd c0 (by simp))
  have A1 := takeWhile_all_cons (p := isPySpace)
    (t :: (sp2 ++ (c0 :: d5') ++ tl)) h1 (mtOK_not_space hmt)
  have A2 := takeWhile_all_cons (p := isPySpace) (d5' ++ tl) h2 hc0
  have hsd : splitDigits 5 (c0 :: (d5' ++ tl)) = some (c0 :: d5', tl) := by
    have := splitDigits_complete (d := c0 :: d5') tl h5 hd
    simpa using this
  rw [parseMTTail_cons_comma]
  rw [A1.1, A1.2]
  dsimp only
  have hr3a : sp2 ++ (c0 :: d5') ++ tl = sp2 ++ c0 :: (d5' ++ tl) := by
    simp [List.append_assoc]
  rw [hr3a, A2.1, A2.2, hsd, hmt]
  dsimp only
  rcases htl with rfl | ⟨d4, rfl, hl4, hd4⟩
  · simp
  · have hsd4 : splitDigits 4 d4 = some (d4, []) := by
      have := splitDigits_complete (d := d4) [] hl4 hd4
      simpa using this
    simp [hsd4, List.append_assoc]

theorem anchoredMT_sound {ci : Bool} {suf : List Char}
    (h : anchoredMT ci suf = true) :
    ∃ sp1 m tc sp2 d5 tl,
      suf = ',' :: (sp1 ++ m :: tc :: (sp2 ++ d5 ++ tl)) ∧
      (∀ c ∈ sp1, isPySpace c = true) ∧ mtOK ci m tc = true ∧
      (∀ c ∈ sp2, isPySpace c = true) ∧ d5.length = 5 ∧ (∀ c ∈ d5, isDig c = true) ∧
      (tl = [] ∨ ∃ d4, tl = '-' :: d4 ∧ d4.length = 4 ∧ (∀ c ∈ d4, isDig c = true)) := by
  unfold anchoredMT at h
  split at h
  case _ t0 rest heq =>
    simp only [decide_eq_true_eq] at h
    subst h
    obtain ⟨hsuf, sp1, m, tc, sp2, d5, tl, ht, props⟩ := parseMTTail_sound heq
    exact ⟨sp1, m, tc, sp2, d5, tl, by simpa [ht] using hsuf, props⟩
  case _ => exact absurd h (by simp)

theorem reSearchMTDollar_iff (ci : Bool) (l : List Char) :
    reSearchMTDollar ci l = true ↔ MtSuffixSpec ci l := by
  constructor
  · intro h
    unfold reSearchMTDollar at h
    simp only [Bool.or_eq_true, Bool.and_eq_true, List.any_eq_true,
      decide_eq_true_eq] at h
    rcases h with ⟨suf, hmem, hanch⟩ | ⟨hlast, suf, hmem, hanch⟩
    · obtain ⟨pre, hpre⟩ := (List.mem_tails _ _).mp hmem
      obtain ⟨sp1, m, tc, sp2, d5, tl, hsuf, p1, p2, p3, p4, p5, p6⟩ := anchoredMT_sound hanch
      exact ⟨pre, sp1, m, tc, sp2, d5, tl, [],
        by rw [← hpre, hsuf]; simp [List.append_assoc], p1, p2, p3, p4, p5, p6, Or.inl rfl⟩
    · obtain ⟨pre, hpre⟩ := (List.mem_tails _ _).mp hmem
      obtain ⟨sp1, m, tc, sp2, d5, tl, hsuf, p1, p2, p3, p4, p5, p6⟩ := anchoredMT_sound hanch
      have hl : l = l.dropLast ++ ['\n'] := (List.dropLast_append_getLast? '\n' hlast).symm
      exact ⟨pre, sp1, m, tc, sp2, d5, tl, ['\n'],
        by rw [hl, ← hpre, hsuf]; simp [List.append_assoc], p1, p2, p3, p4, p5, p6, Or.inr rfl⟩
  · rintro ⟨pre, sp1, m, tc, sp2, d5, tl, nl, hl, p1, p2, p3, p4, p5, p6, hnl⟩
    have hanch : anchoredMT ci (',' :: (sp1 ++ m :: tc :: (sp2 ++ d5 ++ tl))) = true := by
      unfold anchoredMT
      rw [parseMTTail_complete p1 p2 p3 p4 p5 p6]
      simp
    unfold reSearchMTDollar
    simp only [Bool.or_eq_true, Bool.and_eq_true, List.any_eq_true, decide_eq_true_eq]
    rcases hnl with rfl | rfl
    · left
      refine ⟨_, (List.mem_tails _ _).mpr ⟨pre, ?_⟩, hanch⟩
      rw [hl]; simp [List.append_assoc]
    · right
      have hl2 : l = (pre ++ ',' :: (sp1 ++ m :: tc :: (sp2 ++ d5 ++ tl))) ++ ['\n'] := by
        rw [hl]; simp [List.append_assoc]
      constructor
      · rw [hl2]; exact List.getLast?_concat _
      · refine ⟨_, (List.mem_tails _ _).mpr ⟨pre, ?_⟩, hanch⟩
        rw [hl2, List.dropLast_concat]

theorem mtOK_not_space_t {ci : Bool} {m t : Char} (h : mtOK ci m t = true) :
    isPySpace t = false := by
  cases ci <;> simp [mtOK] at h
  · obtain ⟨-, rfl⟩ := h; decide
  · rcases h.2 with rfl | rfl <;> decide

theorem collapseGo_append (w : List Char) (st : Nat) (rest : List Char) :
    ∃ out st', collapseGo st (w ++ rest) = out ++ collapseGo st' rest := by
  induction w generalizing st with
  | nil => exact ⟨[], st, rfl⟩
  | cons c w ih =>
    by_cases hc : isPySpace c = true
    · obtain ⟨out, st', hout⟩ := ih (if st = 0 then 0 else 2)
      exact ⟨out, st', by simp only [List.cons_append, collapseGo, hc, if_true]; exact hout⟩
    · obtain ⟨out, st', hout⟩ := ih 1
      refine ⟨(if st = 2 then [' ', c] else [c]) ++ out, st', ?_⟩
      simp only [List.cons_append, collapseGo, hc, if_false, Bool.false_eq_true, List.append_eq]
      rw [hout, List.append_assoc]

theorem collapseGo_ws {sp : List Char} (st : Nat) (X : List Char)
    (hsp : ∀ c ∈ sp, isPySpace c = true) (hst : st ≠ 0) :
    collapseGo st (sp ++ X) = collapseGo (if sp = [] then st else 2) X := by
  induction sp generalizing st with
  | nil => simp
  | cons s ss ih =>
    have hs : isPySpace s = true := hsp s (by simp)
    have step : collapseGo st ((s :: ss) ++ X) = collapseGo 2 (ss ++ X) := by
      simp only [List.cons_append, collapseGo, hs, if_true, if_neg hst, List.append_eq]
    rw [step, ih 2 (fun c hc => hsp c (by simp [hc])) (by simp)]
    simp

theorem collapseGo_one_nonspace {d : List Char} (h : ∀ c ∈ d, isPySpace c = false) :
    collapseGo 1 d = d := by
  induction d with
  | nil => rfl
  | cons c d ih =>
    have hc : isPySpace c = false := h c (by simp)
    simp only [collapseGo, hc, Bool.false_eq_true, if_false]
    rw [ih (fun x hx => h x (by simp [hx]))]
    simp

theorem collapseGo_cons_nonspace (st : Nat) {c : Char} (hc : isPySpace c = false)
    (X : List Char) :
    collapseGo st (c :: X) = (if st = 2 then [' '] else []) ++ c :: collapseGo 1 X := by
  by_cases h2 : st = 2 <;> simp [collapseGo, hc, h2]

/-- Any string of the form `w ++ t`, where `t` was consumed by the MT tail
pattern, still passes `property_lookup.py`'s validator after whitespace
collapsing. -/
theorem group_collapse_valid {w r t rest : List Char}
    (h : parseMTTail true r = some (t, rest)) :
    looks_like_full_address_pl (collapseWS ⟨w ++ t⟩) = true := by
  obtain ⟨-, sp1, m, tc, sp2, d5, tl, ht, p1, p2, p3, p4, p5, p6⟩ := parseMTTail_sound h
  subst ht
  have hm : isPySpace m = false := mtOK_not_space p2
  have htc : isPySpace tc = false := mtOK_not_space_t p2
  have hd5tl : ∀ c ∈ d5 ++ tl, isPySpace c = false := by
    intro c hc
    rcases List.mem_append.mp hc with hc | hc
    · exact isDig_not_space (p5 c hc)
    · rcases p6 with rfl | ⟨d4, rfl, -, hd4⟩
      · simp at hc
      · rcases List.mem_cons.mp hc with rfl | hc
        · decide
        · exact isDig_not_space (hd4 c hc)
  obtain ⟨c0, d5', rfl⟩ : ∃ c0 d5', d5 = c0 :: d5' := by
    cases d5 with
    | nil => simp at p4
    | cons a b => exact ⟨a, b, rfl⟩
  obtain ⟨out, st', hout⟩ :=
    collapseGo_append w 0 (',' :: (sp1 ++ m :: tc :: (sp2 ++ (c0 :: d5') ++ tl)))
  have hcomma : isPySpace ',' = false := by decide
  have e1 := collapseGo_cons_nonspace st' hcomma (sp1 ++ m :: tc :: (sp2 ++ (c0 :: d5') ++ tl))
  have e2 := @collapseGo_ws sp1 1 (m :: tc :: (sp2 ++ (c0 :: d5') ++ tl)) p1 (by simp)
  have e3 := collapseGo_cons_nonspace (if sp1 = [] then 1 else 2) hm
    (tc :: (sp2 ++ (c0 :: d5') ++ tl))
  have e4 := collapseGo_cons_nonspace 1 htc (sp2 ++ (c0 :: d5') ++ tl)
  have e5 := @collapseGo_ws sp2 1 ((c0 :: d5') ++ tl) p3 (by simp)
  have e6 := collapseGo_cons_nonspace (if sp2 = [] then 1 else 2)
    (isDig_not_space (p5 c0 (by simp))) (d5' ++ tl)
  have e7 : collapseGo 1 (d5' ++ tl) = d5' ++ tl :=
    collapseGo_one_nonspace (fun c hc => hd5tl c (by simp [List.mem_append] at hc ⊢; tauto))
  have e6' : collapseGo (if sp2 = [] then 1 else 2) ((c0 :: d5') ++ tl) =
      (if (if sp2 = [] then 1 else 2) = 2 then [' '] else []) ++
        c0 :: collapseGo 1 (d5' ++ tl) := by
    rw [List.cons_append]; exact e6
  set a := (if (if sp1 = [] then 1 else 2) = 2 then [' '] else ([] : List Char)) with ha
  set b := (if (if sp2 = [] then 1 else 2) = 2 then [' '] else ([] : List Char)) with hb
  have hcoll : collapseL (w ++ ',' :: (sp1 ++ m :: tc :: (sp2 ++ (c0 :: d5') ++ tl))) =
      (out ++ (if st' = 2 then [' '] else [])) ++
        ',' :: (a ++ m :: tc :: (b ++ (c0 :: d5') ++ tl)) := by
    unfold collapseL
    have hassoc : (sp2 ++ (c0 :: d5')) ++ tl = sp2 ++ ((c0 :: d5') ++ tl) :=
      List.append_assoc sp2 (c0 :: d5') tl
    rw [hout, e1, e2, e3, e4, hassoc, e5, e6', e7]
    simp [List.append_assoc]
  have ha' : ∀ c ∈ a, isPySpace c = true := by
    rw [ha]; split <;> decide
  have hb' : ∀ c ∈ b, isPySpace c = true := by
    rw [hb]; split <;> decide
  unfold looks_like_full_address_pl
  have hdata : (collapseWS ⟨w ++ ',' :: (sp1 ++ m :: tc :: (sp2 ++ (c0 :: d5') ++ tl))⟩).data =
      collapseL (w ++ ',' :: (sp1 ++ m :: tc :: (sp2 ++ (c0 :: d5') ++ tl))) := rfl
  rw [hdata, hcoll]
  rw [if_neg (by simp)]
  rw [reSearchMTDollar_iff]
  exact ⟨out ++ (if st' = 2 then [' '] else []), a, m, tc, b, c0 :: d5', tl, [],
    by simp [List.append_assoc], ha', p2, hb', p4, p5, p6, Or.inl rfl⟩

/-- A capture-group result: some prefix followed by a full MT-tail match. -/
def GroupShaped (g : List Char) : Prop :=
  ∃ w r t rest, g = w ++ t ∧ parseMTTail true r = some (t, rest)

theorem groupShaped_valid {g : List Char} (h : GroupShaped g) :
    looks_like_full_address_pl (collapseWS ⟨g⟩) = true := by
  obtain ⟨w, r, t, rest, rfl, hp⟩ := h
  exact group_collapse_valid hp

theorem lazyGroupGo_shaped {l : List Char} :
    ∀ {acc g after}, lazyGroupGo acc l = some (g, after) → GroupShaped g := by
  induction l with
  | nil => intro acc g after h; simp [lazyGroupGo] at h
  | cons c rest ih =>
    intro acc g after h
    unfold lazyGroupGo at h
    by_cases hc : isClassChar c = true
    · rw [if_pos hc] at h
      match hp : parseMTTail true rest with
      | some (t, after') =>
        rw [hp] at h
        simp only [Option.some.injEq, Prod.mk.injEq] at h
        exact ⟨acc ++ [c], rest, t, after', h.1.symm, hp⟩
      | none =>
        rw [hp] at h
        exact ih h
    · rw [if_neg hc] at h; exact absurd h (by simp)

theorem lazyGroupAt_shaped {l g after : List Char}
    (h : lazyGroupAt l = some (g, after)) : GroupShaped g :=
  lazyGroupGo_shaped h

theorem goBackGroup_shaped {skipped rest g : List Char}
    (h : goBackGroup skipped rest = some g) : GroupShaped g := by
  induction skipped generalizing rest with
  | nil =>
    unfold goBackGroup at h
    match hp : lazyGroupAt rest with
    | some (g', a') => rw [hp] at h; cases h; exact lazyGroupAt_shaped hp
    | none => rw [hp] at h; exact absurd h (by simp)
  | cons s ss ih =>
    unfold goBackGroup at h
    match hp : lazyGroupAt rest with
    | some (g', a') => rw [hp] at h; cases h; exact lazyGroupAt_shaped hp
    | none => rw [hp] at h; exact ih h

theorem greedyWsGroup_shaped {l g : List Char} (h : greedyWsGroup l = some g) :
    GroupShaped g := goBackGroup_shaped h

theorem searchLabeledScan_shaped {lbl : List Char} {g : List Char} :
    ∀ {l : List Char}, searchLabeledScan lbl l = some g → GroupShaped g := by
  intro l
  induction l with
  | nil => intro h; simp [searchLabeledScan] at h
  | cons c rest ih =>
    intro h
    unfold searchLabeledScan at h
    match hm : (matchLabelCI lbl (c :: rest)).bind greedyWsGroup with
    | some g' =>
      rw [hm] at h; cases h
      obtain ⟨r1, -, hg⟩ := Option.bind_eq_some.mp hm
      exact greedyWsGroup_shaped hg
    | none => rw [hm] at h; exact ih h

theorem scanPLAt_shaped {l g : List Char} (h : scanPLAt l = some g) :
    GroupShaped g := by
  unfold scanPLAt at h
  dsimp only at h
  split at h
  case _ g' hp =>
    cases h
    obtain ⟨r1, -, h2⟩ := Option.bind_eq_some.mp hp
    rw [if_neg] at h2
    · obtain ⟨r2, -, h3⟩ := Option.bind_eq_some.mp h2
      exact greedyWsGroup_shaped h3
    · intro hcon
      rw [hcon] at h2
      exact absurd h2 (by simp)
  case _ =>
    obtain ⟨r1, -, h2⟩ := Option.bind_eq_some.mp h
    exact greedyWsGroup_shaped h2

theorem scanPL_shaped {g : List Char} :
    ∀ {l : List Char}, scanPL l = some g → GroupShaped g := by
  intro l
  induction l with
  | nil => intro h; simp [scanPL] at h
  | cons c rest ih =>
    intro h
    unfold scanPL at h
    match hm : scanPLAt (c :: rest) with
    | some g' => rw [hm] at h; cases h; exact scanPLAt_shaped hm
    | none => rw [hm] at h; exact ih h

theorem findLeftmostG_shaped {g after : List Char} :
    ∀ {l : List Char}, findLeftmostG l = some (g, after) → GroupShaped g := by
  intro l
  induction l with
  | nil => intro h; simp [findLeftmostG] at h
  | cons c rest ih =>
    intro h
    unfold findLeftmostG at h
    match hm : lazyGroupAt (c :: rest) with
    | some (g', a') => rw [hm] at h; cases h; exact lazyGroupAt_shaped hm
    | none => rw [hm] at h; exact ih h

theorem findallGroups_shaped {fuel : Nat} {l : List Char} :
    ∀ g ∈ findallGroups fuel l, GroupShaped g := by
  induction fuel generalizing l with
  | zero => intro g hg; simp [findallGroups] at hg
  | succ n ih =>
    intro g hg
    unfold findallGroups at hg
    match hm : findLeftmostG l with
    | some (g', after) =>
      rw [hm] at hg
      rcases List.mem_cons.mp hg with rfl | hg
      · exact findLeftmostG_shaped hm
      · exact ih g hg
    | none => rw [hm] at hg; simp at hg

/-! ## Claim C1 -/

/-- C1, counterexample: the claim's validator rule accepts any 2-letter state
code, but the implemented validator `_looks_like_full_address` accepts only
`MT`: on `"123 MAIN ST, CA 90210"` the claimed rule holds yet the code
returns false, refuting the claimed equivalence. -/
theorem C1_counterexample :
    spec_isValidAddress "123 MAIN ST, CA 90210" = true ∧
    ("123 MAIN ST, CA 90210" : String).length ≥ 10 ∧
    looks_like_full_address_api "123 MAIN ST, CA 90210" = false := by
  decide

/-- C1 (amended): `_looks_like_full_address` of `property_lookup_api.py`
returns true iff the string has at least 10 characters and ends — optionally
before a single trailing newline — with a comma, optional whitespace, the
state code `MT` (case-insensitive), optional whitespace, and a 5-digit zip
optionally followed by a hyphen and 4 more digits; whitespace is not
collapsed first.  The `simple_property_lookup.py` variant is the same rule
with `MT` case-sensitive and without the length minimum. -/
theorem C1_amended :
    ∀ s : String,
      (looks_like_full_address_api s = true ↔
        10 ≤ s.length ∧ MtSuffixSpec true s.data) ∧
      (looks_like_full_address_simple s = true ↔ MtSuffixSpec false s.data) := by
  intro s
  refine ⟨?_, reSearchMTDollar_iff false s.data⟩
  unfold looks_like_full_address_api
  by_cases h : s.length < 10
  · rw [if_pos h]
    simp only [Bool.false_eq_true, false_iff, not_and]
    intro h10
    omega
  · rw [if_neg h, reSearchMTDollar_iff]
    exact ⟨fun hm => ⟨by omega, hm⟩, fun hm => hm.2⟩

/-! ## Claim C2 -/

/-- The spec's LookupResult invariant, with the validator taken as
`property_lookup.py`'s `_looks_like_full_address` (case-insensitive, no
length minimum). -/
def ResultInvariant (r : LookupResult) : Prop :=
  (r.success = true → ∃ a, r.address = some a ∧ looks_like_full_address_pl a = true) ∧
  (r.success = false → r.address = none ∧ r.error.isSome = true)

theorem invariant_plProcError (e : String) : ResultInvariant (plProcError e) :=
  ⟨fun h => by simp [plProcError] at h, fun _ => by simp [plProcError]⟩

theorem invariant_plNotFound : ResultInvariant plNotFound :=
  ⟨fun h => by simp [plNotFound] at h, fun _ => by simp [plNotFound]⟩

theorem invariant_success {a g : String} (h : looks_like_full_address_pl a = true) :
    ResultInvariant { success := true, address := some a, geocode := some g } :=
  ⟨fun _ => ⟨a, rfl, h⟩, fun hf => by simp at hf⟩

theorem plStrat2_valid : ∀ {lst : List (Except String String)} {a : String},
    plStrat2 lst = some a → looks_like_full_address_pl a = true := by
  intro lst
  induction lst with
  | nil => intro a h; simp [plStrat2] at h
  | cons c rest ih =>
    intro a h
    match c with
    | Except.error e => rw [plStrat2] at h; exact ih h
    | Except.ok t =>
      rw [plStrat2] at h
      split at h
      case isTrue hv => cases h; exact hv
      case isFalse => exact ih h

theorem simpleExtract_valid {t : List Char} {a : String}
    (h : simpleExtract t = some a) :
    looks_like_full_address_pl a = true := by
  unfold simpleExtract at h
  split at h
  case _ g hg => cases h; exact groupShaped_valid (searchLabeledScan_shaped hg)
  case _ =>
    split at h
    case _ g hg => cases h; exact groupShaped_valid (searchLabeledScan_shaped hg)
    case _ =>
      split at h
      case _ g hg => cases h; exact groupShaped_valid (searchLabeledScan_shaped hg)
      case _ =>
        obtain ⟨g, hmem, hsome⟩ := List.exists_of_findSome?_eq_some h
        dsimp only at hsome
        split at hsome
        case isTrue => cases hsome; exact groupShaped_valid (findallGroups_shaped g hmem)
        case isFalse => exact absurd hsome (by simp)

theorem getPropertyAddressSimple_invariant (g : String) (f : Except String String) :
    ResultInvariant (getPropertyAddressSimple g f) := by
  cases f with
  | error e =>
    simp only [getPropertyAddressSimple]
    exact ⟨fun h => by simp at h, fun _ => by simp⟩
  | ok txt =>
    simp only [getPropertyAddressSimple]
    split
    case _ a ha => exact invariant_success (simpleExtract_valid ha)
    case _ => exact ⟨fun h => by simp at h, fun _ => by simp⟩

theorem getPropertyAddressPL_invariant (g : String) (p : PLPage) :
    ResultInvariant (getPropertyAddressPL g p) := by
  unfold getPropertyAddressPL
  split
  case _ e _ => exact invariant_plProcError e
  case _ =>
    dsimp only
    split
    case _ address haddr =>
      -- strategy 1 success
      split at haddr
      case _ t =>
        split at haddr
        case isTrue hv => cases haddr; exact invariant_success hv
        case isFalse => exact absurd haddr (by simp)
      case _ => exact absurd haddr (by simp)
    case _ =>
      split
      case _ text htext => exact invariant_success (plStrat2_valid htext)
      case _ =>
        split
        case _ e _ => exact invariant_plProcError e
        case _ bt =>
          split
          case _ e _ => exact invariant_plProcError e
          case _ address haddr =>
            -- strategy 3 success
            split at haddr
            case _ allText =>
              split at haddr
              case isTrue =>
                split at haddr
                case _ e _ => exact absurd haddr (by simp)
                case _ t =>
                  split at haddr
                  case isTrue hv =>
                    simp only [Except.ok.injEq, Option.some.injEq] at haddr
                    subst haddr
                    exact invariant_success hv
                  case isFalse => exact absurd haddr (by simp)
                case _ => exact absurd haddr (by simp)
              case isFalse => exact absurd haddr (by simp)
            case _ => exact absurd haddr (by simp)
          case _ =>
            split
            case _ address haddr =>
              -- strategy 4 success
              split at haddr
              case _ t =>
                split at haddr
                case isTrue hv => cases haddr; exact invariant_success hv.2
                case isFalse => exact absurd haddr (by simp)
              case _ => exact absurd haddr (by simp)
            case _ =>
              split
              case _ address haddr =>
                -- strategy 5 success
                split at haddr
                case _ allText =>
                  simp only [Option.map_eq_some'] at haddr
                  obtain ⟨gg, hgg, rfl⟩ := haddr
                  exact invariant_success (groupShaped_valid (scanPL_shaped hgg))
                case _ => exact absurd haddr (by simp)
              case _ => exact invariant_plNotFound

/-- C2, counterexample: `simple_property_lookup.py` can return success with an
address that fails both implementations of the Address Validator cited by the
spec: on a page containing `Address: x,mt59102` it succeeds with `"x,mt9102"`
(9 characters, lowercase `mt`), rejected by `property_lookup_api.py`'s
validator (length < 10) and by `simple_property_lookup.py`'s own
(case-sensitive). -/
theorem C2_counterexample :
    (getPropertyAddressSimple "G" (Except.ok "Address: x,mt59102")).success = true ∧
    (getPropertyAddressSimple "G" (Except.ok "Address: x,mt59102")).address =
      some "x,mt59102" ∧
    looks_like_full_address_api "x,mt59102" = false ∧
    looks_like_full_address_simple "x,mt59102" = false := by
  decide

/-- C2 (amended): for every page environment, the results of
`property_lookup.py`'s and `simple_property_lookup.py`'s orchestrators
satisfy: success implies the address field is present and passes the
case-insensitive, no-minimum-length form of the Address Validator
(`property_lookup.py`'s `_looks_like_full_address`); failure implies the
address field is absent and the error field is present. -/
theorem C2_amended :
    ∀ (g : String) (p : PLPage) (f : Except String String),
      ResultInvariant (getPropertyAddressPL g p) ∧
      ResultInvariant (getPropertyAddressSimple g f) :=
  fun g p f => ⟨getPropertyAddressPL_invariant g p, getPropertyAddressSimple_invariant g f⟩

/-! ## Claims C3 and C9 -/

/-! Concrete page environments used as witnesses. -/

/-- A browser page where every interaction succeeds and the label's sibling
holds the Rehberg address. -/
def appPageOk : AppPage :=
  ⟨Except.ok (), Except.ok (), Except.ok true,
   Except.ok (some "2324 REHBERG LN BILLINGS, MT 59102"),
   Except.ok (some ""), Except.ok none, Except.ok none⟩

/-- A page whose `context.new_page()` call raises. -/
def appPageNewPageFails : AppPage :=
  ⟨Except.error "browser crashed", Except.ok (), Except.ok true,
   Except.ok (some "2324 REHBERG LN BILLINGS, MT 59102"),
   Except.ok (some ""), Except.ok none, Except.ok none⟩

/-- A page whose navigation times out inside the `try`. -/
def appPageGotoFails : AppPage :=
  ⟨Except.ok (), Except.error "navigation timeout", Except.ok false,
   Except.ok none, Except.ok none, Except.ok none, Except.ok none⟩

/-- C3, counterexample: a 3-character geocode is rejected by FastAPI's
`Query(..., min_length=5)` validation with HTTP 422 (the framework's
validation status), not the claimed 400. -/
theorem C3_counterexample :
    (lookupEndpointApp (some "abc") appPageOk).status = 422 ∧
    (lookupEndpointApp (some "abc") appPageOk).status ≠ 400 := by
  decide

/-- C3 (amended): for every missing or shorter-than-5-character geocode the
endpoint answers HTTP 422, and the response is independent of the page
environment — the handler body, and hence any upstream interaction, never
runs. -/
theorem C3_amended :
    ∀ (geocode : Option String) (p p' : AppPage),
      (geocode = none ∨ ∃ g, geocode = some g ∧ g.length < 5) →
      lookupEndpointApp geocode p = lookupEndpointApp geocode p' ∧
      (lookupEndpointApp geocode p).status = 422 := by
  rintro geocode p p' (rfl | ⟨g, rfl, hg⟩)
  · exact ⟨rfl, rfl⟩
  · unfold lookupEndpointApp
    dsimp only
    simp [hg]

/-- C3, witness: the amended statement at geocode `"abc"` and two distinct
page environments. -/
theorem C3_witness :
    lookupEndpointApp (some "abc") appPageOk =
      lookupEndpointApp (some "abc") appPageNewPageFails ∧
    (lookupEndpointApp (some "abc") appPageOk).status = 422 :=
  C3_amended (some "abc") appPageOk appPageNewPageFails
    (Or.inr ⟨"abc", rfl, by decide⟩)

/-- C9: on the browser-rendered path the per-request context is closed on the
normal path and on the exception path inside the `try`/`finally`, but an
exception from `context.new_page()` — raised after the context is created and
before the `try` begins — escapes with the context still open, contradicting
the spec's guarantee of teardown on every exit path. -/
theorem C9_contextClose :
    (appLookup "12345" appPageNewPageFails).2 = false ∧
    (appLookup "12345" appPageNewPageFails).1 = Except.error "browser crashed" ∧
    (appLookup "12345" appPageOk).2 = true ∧
    (appLookup "12345" appPageOk).1 =
      Except.ok { status := 200, geocode := some "12345",
                  address := some "2324 REHBERG LN BILLINGS, MT 59102" } ∧
    (appLookup "12345" appPageGotoFails).2 = true ∧
    (appLookup "12345" appPageGotoFails).1 =
      Except.ok { status := 500, detail := some "Lookup failed: navigation timeout" } :=
  ⟨rfl, rfl, rfl, rfl, rfl, rfl⟩

/-! ## Claims C4, C5 and C6 -/

/-- All-error XPath outcomes produce no strategy-2 candidate. -/
theorem plStrat2_all_errors : ∀ {lst : List (Except String String)},
    (∀ c ∈ lst, ∃ e, c = Except.error e) → plStrat2 lst = none := by
  intro lst
  induction lst with
  | nil => intro _; rfl
  | cons c rest ih =>
    intro h
    obtain ⟨e, rfl⟩ := h c (by simp)
    rw [plStrat2]
    exact ih fun c hc => h c (by simp [hc])

/-- A quiescent page: no label anywhere, nothing matches. -/
def plPageEmpty : PLPage :=
  ⟨Except.ok (), Except.ok none, [], Except.ok (some "nothing here"),
   Except.ok none, Except.ok none, Except.ok "nothing here"⟩

/-- C4: when the fetched page contains no recognizable address label and no
text matching the address regex, both orchestrators return their not-found
failure result (and, as total functions of the page environment, propagate no
exception). -/
theorem C4_notFound :
    ∀ (g t u : String) (p : PLPage),
      p.goto = Except.ok () →
      p.strat1 = Except.ok none →
      (∀ c ∈ p.strat2, ∃ e, c = Except.error e) →
      p.bodyText = Except.ok (some t) →
      containsSub "Property Address".data t.data = false →
      p.strat4 = Except.ok none →
      p.bodyInnerText = Except.ok t →
      scanPL t.data = none →
      simpleExtract u.data = none →
      getPropertyAddressPL g p = plNotFound ∧
      getPropertyAddressSimple g (Except.ok u) =
        { success := false,
          error := some ("No address found for geocode " ++ g ++
            ". The property may not exist or the page structure may have changed."),
          debug_info := some ("Page contains " ++ toString u.length ++ " characters") } := by
  intro g t u p h0 h1 h2 h3 h4 h5 h6 h7 h8
  constructor
  · unfold getPropertyAddressPL
    rw [h0, h1, plStrat2_all_errors h2, h3, h5, h6]
    simp [h4, h7]
  · unfold getPropertyAddressSimple
    dsimp only
    rw [h8]

/-- C4, witness: the not-found behaviour on a concrete quiescent page. -/
theorem C4_witness :
    getPropertyAddressPL "G" plPageEmpty = plNotFound ∧
    getPropertyAddressSimple "G" (Except.ok "nothing here") =
      { success := false,
        error := some ("No address found for geocode G" ++
          ". The property may not exist or the page structure may have changed."),
        debug_info := some "Page contains 12 characters" } := by
  have h := C4_notFound "G" "nothing here" "nothing here" plPageEmpty rfl rfl
    (by intro c hc; simp [plPageEmpty] at hc) rfl (by decide) rfl rfl (by decide) (by decide)
  exact ⟨h.1, h.2.trans (by decide)⟩

/-- A page whose strategy-1 sibling text is the Rehberg address with a double
internal space. -/
def plPageRehbergWS : PLPage :=
  ⟨Except.ok (), Except.ok (some "2324 REHBERG LN  BILLINGS, MT 59102"), [],
   Except.ok none, Except.ok none, Except.ok none, Except.ok ""⟩

/-- A page whose strategy-1 sibling text is the Rehberg address padded with
leading and trailing whitespace. -/
def plPageRehbergPad : PLPage :=
  ⟨Except.ok (), Except.ok (some " 2324 REHBERG LN BILLINGS, MT 59102 "), [],
   Except.ok none, Except.ok none, Except.ok none, Except.ok ""⟩

/-- C5, counterexample: when the sibling text carries extra internal
whitespace, the structural strategy returns it with the internal whitespace
intact — only leading/trailing whitespace is stripped — refuting the claim
that internal whitespace is collapsed to single spaces before validation. -/
theorem C5_counterexample :
    (getPropertyAddressPL "G" plPageRehbergWS).success = true ∧
    (getPropertyAddressPL "G" plPageRehbergWS).address =
      some "2324 REHBERG LN  BILLINGS, MT 59102" ∧
    collapseWS "2324 REHBERG LN  BILLINGS, MT 59102" ≠
      "2324 REHBERG LN  BILLINGS, MT 59102" := by
  decide

/-- C5 (amended): when navigation succeeds and the label's following-sibling
text, stripped of leading and trailing whitespace, passes the validator, the
orchestrator returns success with exactly that stripped text — internal
whitespace preserved. -/
theorem C5_amended :
    ∀ (g t : String) (p : PLPage),
      p.goto = Except.ok () →
      p.strat1 = Except.ok (some t) →
      looks_like_full_address_pl (pyStrip t) = true →
      getPropertyAddressPL g p =
        { success := true, address := some (pyStrip t), geocode := some g } := by
  intro g t p h0 h1 hv
  unfold getPropertyAddressPL
  rw [h0, h1]
  simp [hv]

/-- C5, witness: the amended statement at the padded Rehberg page; the
returned address is exactly the claim's string. -/
theorem C5_witness :
    getPropertyAddressPL "G" plPageRehbergPad =
      { success := true, address := some "2324 REHBERG LN BILLINGS, MT 59102",
        geocode := some "G" } := by
  have h := C5_amended "G" " 2324 REHBERG LN BILLINGS, MT 59102 " plPageRehbergPad
    rfl rfl (by decide)
  rw [h]
  decide

/-- Removing an erroring XPath outcome does not change strategy 2's result. -/
theorem plStrat2_skip_error (e : String) :
    ∀ (xs ys : List (Except String String)),
      plStrat2 (xs ++ Except.error e :: ys) = plStrat2 (xs ++ ys) := by
  intro xs ys
  induction xs with
  | nil => rfl
  | cons c xs ih =>
    cases c with
    | error e' => simp only [List.cons_append, plStrat2]; exact ih
    | ok t => simp only [List.cons_append, plStrat2, List.append_eq]; rw [ih]

/-- A page where the strategy-3 body read raises while strategy 4 would
succeed. -/
def plPageStrat3Boom : PLPage :=
  ⟨Except.ok (), Except.ok none, [], Except.error "body read failed",
   Except.ok none, Except.ok (some "2324 REHBERG LN BILLINGS, MT 59102"),
   Except.ok ""⟩

/-- C6, counterexample: an exception in strategy 3's unguarded
`page.text_content("body")` read is surfaced as the lookup's failure result
even though strategy 4, still untried, would have produced a success (as the
same page with a readable body shows). -/
theorem C6_counterexample :
    getPropertyAddressPL "G" plPageStrat3Boom = plProcError "body read failed" ∧
    (getPropertyAddressPL "G"
      { plPageStrat3Boom with bodyText := Except.ok none }).success = true := by
  decide

/-- C6 (amended): strategies 1, 2, 4 and 5 of `property_lookup.py` swallow
their own exceptions, so a throwing strategy behaves exactly like one that
finds nothing and evaluation advances; strategy 3's page reads are the
exception — they are unguarded and abort the chain (and `app.py` guards no
strategy individually). -/
theorem C6_amended :
    ∀ (g e : String) (p : PLPage) (xs ys : List (Except String String)),
      (getPropertyAddressPL g { p with strat1 := Except.error e } =
        getPropertyAddressPL g { p with strat1 := Except.ok none }) ∧
      (getPropertyAddressPL g { p with strat2 := xs ++ Except.error e :: ys } =
        getPropertyAddressPL g { p with strat2 := xs ++ ys }) ∧
      (getPropertyAddressPL g { p with strat4 := Except.error e } =
        getPropertyAddressPL g { p with strat4 := Except.ok none }) ∧
      (getPropertyAddressPL g { p with bodyInnerText := Except.error e } =
        getPropertyAddressPL g { p with bodyInnerText := Except.ok "" }) := by
  intro g e p xs ys
  refine ⟨rfl, ?_, rfl, rfl⟩
  unfold getPropertyAddressPL
  rw [plStrat2_skip_error]

/-! ## Claims C7, C8 and C10 -/

/-- A strategy outcome that did not produce a success result. -/
def stratFailed (x : Except String LookupResult) : Prop :=
  ∀ r, x = Except.ok r → r.success = false

/-- The hyphen-stripped form of a geocode contains no hyphen, so it can never
equal the hyphenated known key. -/
theorem stripHyphens_ne_hyphenated (g : String) :
    stripHyphens g ≠ "03-1032-34-1-08-10-0000" := by
  intro h
  have hmem : '-' ∈ (stripHyphens g).data := by rw [h]; decide
  unfold stripHyphens at hmem
  simp [List.mem_filter] at hmem

/-- C8: in `property_lookup_api.py`, the ArcGIS result wins when successful;
otherwise a successful scraping result wins; the known-value fallback is
consulted only when both have failed, and it succeeds exactly on geocodes
whose hyphen-stripped form is `03103234108100000` (returning the Rehberg
address), failing with an error message on every other geocode. -/
theorem C8_fallback :
    (∀ (g : String) (env : ApiEnv) (r : LookupResult),
      env.arcgis = Except.ok r → r.success = true →
      getPropertyAddressApi g env = r) ∧
    (∀ (g : String) (env : ApiEnv) (r : LookupResult),
      stratFailed env.arcgis → env.scraping = Except.ok r → r.success = true →
      getPropertyAddressApi g env = r) ∧
    (∀ (g : String) (env : ApiEnv),
      stratFailed env.arcgis → stratFailed env.scraping →
      getPropertyAddressApi g env = try_known_properties_fallback g) ∧
    (∀ g : String,
      try_known_properties_fallback g =
        if stripHyphens g = "03103234108100000" then
          { success := true, address := some "2324 REHBERG LN BILLINGS, MT 59102",
            geocode := some g }
        else
          { success := false,
            error := some ("Property data not available for geocode " ++ g ++
              ". This service uses the official Montana cadastral database, but some properties may not be available or may require different formatting.") }) := by
  refine ⟨?_, ?_, ?_, ?_⟩
  · intro g env r h hr
    unfold getPropertyAddressApi
    rw [h]
    simp [hr]
  · intro g env r ha h hr
    unfold getPropertyAddressApi
    rw [h]
    match harc : env.arcgis with
    | Except.error e => simp [hr]
    | Except.ok r' =>
      have := ha r' harc
      simp [this, hr]
  · intro g env ha hs
    unfold getPropertyAddressApi
    match hsc : env.scraping with
    | Except.error e =>
      match harc : env.arcgis with
      | Except.error e' => simp
      | Except.ok r' => simp [ha r' harc]
    | Except.ok r2 =>
      have h2 := hs r2 hsc
      match harc : env.arcgis with
      | Except.error e' => simp [h2]
      | Except.ok r' => simp [ha r' harc, h2]
  · intro g
    by_cases h1 : g = "03-1032-34-1-08-10-0000"
    · subst h1; decide
    · by_cases h2 : g = "03103234108100000"
      · subst h2; decide
      · unfold try_known_properties_fallback known_properties
        simp only [assocFind, if_neg h1, if_neg h2,
          if_neg (stripHyphens_ne_hyphenated g)]
        by_cases h3 : stripHyphens g = "03103234108100000"
        · simp [h3]
        · simp [h3]

/-- C8, witness: with both network strategies down, the fallback decides the
result: the hyphenated known geocode succeeds with the Rehberg address and an
unknown geocode fails. -/
theorem C8_witness :
    getPropertyAddressApi "03-1032-34-1-08-10-0000"
        ⟨Except.error "net down", Except.error "net down"⟩ =
      { success := true, address := some "2324 REHBERG LN BILLINGS, MT 59102",
        geocode := some "03-1032-34-1-08-10-0000" } ∧
    (getPropertyAddressApi "99-9999-99"
        ⟨Except.error "net down", Except.error "net down"⟩).success = false := by
  have h := C8_fallback
  have e1 := h.2.2.1 "03-1032-34-1-08-10-0000"
    ⟨Except.error "net down", Except.error "net down"⟩
    (fun r hr => by exact absurd hr (by simp)) (fun r hr => by exact absurd hr (by simp))
  have e2 := h.2.2.1 "99-9999-99"
    ⟨Except.error "net down", Except.error "net down"⟩
    (fun r hr => by exact absurd hr (by simp)) (fun r hr => by exact absurd hr (by simp))
  constructor
  · rw [e1, h.2.2.2]; decide
  · rw [e2, h.2.2.2]; decide

/-- Both upstream requests return 200 with empty bodies. -/
def reqNet200 : ReqNet := ⟨Except.ok 200, Except.ok 200, "", ""⟩

/-- The geocode `A` of the known table satisfies `strip(A) = B`. -/
theorem strip_known_geocode :
    stripHyphens "03-1032-34-1-08-10-0000" = "03103234108100000" := by decide

/-- C10, counterexample: `lookup_property` succeeds on
`"0310-3234108100000"` — a third input beyond the two the claim lists — since
the code compares the hyphen-stripped geocode. -/
theorem C10_counterexample :
    (lookup_property "0310-3234108100000" reqNet200).success = true ∧
    "0310-3234108100000" ≠ "03-1032-34-1-08-10-0000" ∧
    "0310-3234108100000" ≠ "03103234108100000" := by decide

/-- C10 (amended): `lookup_property` returns success exactly when both
upstream responses have status 200 and the hyphen-stripped geocode equals
`03103234108100000` (so every hyphen placement of that digit string succeeds,
not just the two listed inputs); the success address is the hardcoded Rehberg
string, every failure carries an error, and the result never depends on the
response bodies, which are never parsed. -/
theorem C10_amended :
    ∀ (g : String) (net : ReqNet),
      ((lookup_property g net).success = true ↔
        net.initialStatus = Except.ok 200 ∧ net.searchStatus = Except.ok 200 ∧
        stripHyphens g = "03103234108100000") ∧
      ((lookup_property g net).success = true →
        (lookup_property g net).address =
          some "2324 REHBERG LN BILLINGS, MT 59102") ∧
      ((lookup_property g net).success = false →
        (lookup_property g net).error.isSome = true) ∧
      (∀ b1 b2 b1' b2',
        lookup_property g { net with initialBody := b1, searchBody := b2 } =
        lookup_property g { net with initialBody := b1', searchBody := b2' }) := by
  intro g net
  have hAB : g = "03-1032-34-1-08-10-0000" → stripHyphens g = "03103234108100000" :=
    fun h => h ▸ strip_known_geocode
  obtain ⟨i, s, b1, b2⟩ := net
  refine ⟨?_, ?_, ?_, fun b1 b2 b1' b2' => rfl⟩ <;>
    unfold lookup_property <;> dsimp only
  · cases i with
    | error e => simp
    | ok st1 =>
      dsimp only
      by_cases h1 : st1 = 200
      · subst h1
        rw [if_neg (by simp)]
        cases s with
        | error e => simp
        | ok st2 =>
          dsimp only
          split
          next hc =>
            simp only [Except.ok.injEq, eq_self_iff_true, true_and]
            constructor
            · intro _
              refine ⟨hc.1, ?_⟩
              rcases hc.2 with h | h
              · exact h
              · exact hAB h
            · intro _; trivial
          next hc =>
            simp only [Except.ok.injEq, eq_self_iff_true, true_and]
            constructor
            · intro h; exact absurd h (by simp)
            · rintro ⟨h2, h3⟩
              exact absurd ⟨h2, Or.inl h3⟩ hc
      · rw [if_pos (by simpa using h1)]
        simp only [Except.ok.injEq]
        constructor
        · intro h; exact absurd h (by simp)
        · rintro ⟨h, -, -⟩; exact absurd h h1
  · cases i with
    | error e => simp
    | ok st1 =>
      dsimp only
      by_cases h1 : st1 = 200
      · subst h1
        rw [if_neg (by simp)]
        cases s with
        | error e => simp
        | ok st2 =>
          dsimp only
          split
          next hc => intro _; rfl
          next hc => intro h; exact absurd h (by simp)
      · rw [if_pos (by simpa using h1)]
        intro h; exact absurd h (by simp)
  · cases i with
    | error e => intro _; rfl
    | ok st1 =>
      dsimp only
      by_cases h1 : st1 = 200
      · subst h1
        rw [if_neg (by simp)]
        cases s with
        | error e => intro _; rfl
        | ok st2 =>
          dsimp only
          split
          next hc => intro h; exact absurd h (by simp)
          next hc => intro _; rfl
      · rw [if_pos (by simpa using h1)]
        intro _; rfl

/-- C10, witness: the amended statement evaluated at the hyphenated known
geocode with both statuses 200. -/
theorem C10_witness :
    (lookup_property "03-1032-34-1-08-10-0000" reqNet200).success = true ∧
    (lookup_property "03-1032-34-1-08-10-0000" reqNet200).address =
      some "2324 REHBERG LN BILLINGS, MT 59102" ∧
    (lookup_property "XX-1234" reqNet200).success = false ∧
    (lookup_property "XX-1234" reqNet200).error.isSome = true := by
  have hA := C10_amended "03-1032-34-1-08-10-0000" reqNet200
  have hX := C10_amended "XX-1234" reqNet200
  have hsucc : (lookup_property "03-1032-34-1-08-10-0000" reqNet200).success = true :=
    hA.1.mpr ⟨rfl, rfl, by decide⟩
  have hfail : (lookup_property "XX-1234" reqNet200).success = false := by
    match hv : (lookup_property "XX-1234" reqNet200).success with
    | false => rfl
    | true => exact absurd (hX.1.mp hv).2.2 (by decide)
  exact ⟨hsucc, hA.2.1 hsucc, hfail, hX.2.2.1 hfail⟩

/-- A diagnostic environment where browser installation succeeds and the page
fetch yields fixed text. -/
def diagEnvOk : DiagEnv := ⟨Except.ok (), Except.ok "nothing here"⟩

/-- C7, counterexample: invoked with an empty positional argument,
`property_lookup_requests.py` neither strips nor rejects it — the lookup runs
and the process exits 0, not 1; moreover `property_lookup.py`'s failure JSON
carries no `geocode` key, so the `{success, address|error, geocode}` shape
does not hold on failures. -/
theorem C7_counterexample :
    (cliRequests ["prog", ""] reqNet200).2 = 0 ∧
    (cliPL ["prog", "G"] plPageEmpty).1.success = false ∧
    (cliPL ["prog", "G"] plPageEmpty).1.geocode = none := by
  decide

/-- C7 (amended): every CLI variant prints a single JSON object and exits 1
when the argument count is wrong; `property_lookup.py` (like the api and
simple variants) also exits 1 on an empty-after-strip argument, but
`property_lookup_requests.py` and `diagnostic_lookup.py` pass an empty
argument through to the lookup and exit 0; failure objects carry
`{success, error}` without the `geocode` key. -/
theorem C7_amended :
    ∀ (argv : List String) (page : PLPage) (net : ReqNet) (env : DiagEnv),
      (argv.length ≠ 2 →
        (cliPL argv page).2 = 1 ∧ (cliRequests argv net).2 = 1 ∧
        (cliDiag argv env).2 = 1 ∧
        (cliPL argv page).1.success = false ∧
        (cliPL argv page).1.error.isSome = true ∧
        (cliPL argv page).1.geocode = none) ∧
      (∀ prog arg, pyStrip arg = "" → (cliPL [prog, arg] page).2 = 1 ∧
        (cliPL [prog, arg] page).1 =
          { success := false, error := some "Empty geocode provided" }) ∧
      (∀ prog, (cliRequests [prog, ""] net).2 = 0) ∧
      (∀ prog, env.install = Except.ok () → (cliDiag [prog, ""] env).2 = 0) := by
  intro argv page net env
  refine ⟨?_, ?_, ?_, ?_⟩
  · intro hlen
    match argv with
    | [] => exact ⟨rfl, rfl, rfl, rfl, rfl, rfl⟩
    | [a] => exact ⟨rfl, rfl, rfl, rfl, rfl, rfl⟩
    | [a, b] => exact absurd (rfl : ([a, b] : List String).length = 2) hlen
    | a :: b :: c :: rest => exact ⟨rfl, rfl, rfl, rfl, rfl, rfl⟩
  · intro prog arg harg
    unfold cliPL
    dsimp only
    rw [harg]
    exact ⟨rfl, rfl⟩
  · intro prog; rfl
  · intro prog hinst
    unfold cliDiag getPropertyAddressDiag
    dsimp only
    rw [hinst]

/-- C7, witness: the amended statement at concrete argument vectors and
environments. -/
theorem C7_witness :
    (cliPL ["prog"] plPageEmpty).2 = 1 ∧
    (cliRequests ["prog"] reqNet200).2 = 1 ∧
    (cliDiag ["prog"] diagEnvOk).2 = 1 ∧
    (cliPL ["prog", "  "] plPageEmpty).2 = 1 ∧
    (cliRequests ["prog", ""] reqNet200).2 = 0 ∧
    (cliDiag ["prog", ""] diagEnvOk).2 = 0 := by
  have h := C7_amended ["prog"] plPageEmpty reqNet200 diagEnvOk
  have h2 := C7_amended ["prog", "  "] plPageEmpty reqNet200 diagEnvOk
  have hwrong := h.1 (by decide)
  exact ⟨hwrong.1, hwrong.2.1, hwrong.2.2.1,
    (h2.2.1 "prog" "  " (by decide)).1,
    h.2.2.1 "prog",
    h.2.2.2 "prog" rfl⟩

end Geocode
